import Mathlib

/-!
# Verification of the NPS RADIUS log viewer core pipeline

Shallow embedding of the ingestion–correlation–query pipeline of
`src/src/main.rs` (an NPS RADIUS log viewer): the `Event` / `RadiusRequest`
data model, the packet-type / reason code tables, the correlator
(`parse_full_logic` grouping + `process_group` folding), the query engine
(`apply_filter_logic` with `RadiusRequest.matches`), and the ingestion
completion step of the open-button handler.

Strings are modelled with Lean `String` (a list of Unicode scalar values);
Rust's byte-wise `String` ordering and substring search coincide with the
scalar-value versions because UTF-8 is order-preserving and
self-synchronizing.
-/

/-! ## String primitives mirroring the Rust standard library -/

/-- Rust `char::is_whitespace`: the Unicode `White_Space` code points. -/
def rust_is_whitespace (c : Char) : Bool :=
  (9 ≤ c.toNat && c.toNat ≤ 13) || c.toNat == 32 || c.toNat == 133 ||
  c.toNat == 160 || c.toNat == 5760 || (8192 ≤ c.toNat && c.toNat ≤ 8202) ||
  c.toNat == 8232 || c.toNat == 8233 || c.toNat == 8239 || c.toNat == 8287 ||
  c.toNat == 12288

/-- Rust `str::trim`: strip leading and trailing whitespace. -/
def rust_trim (s : String) : String :=
  ⟨((s.data.dropWhile rust_is_whitespace).reverse.dropWhile rust_is_whitespace).reverse⟩

/-- ASCII lowercasing of one character (Rust `u8::to_ascii_lowercase`). -/
def ascii_lower_char (c : Char) : Char :=
  if 'A' ≤ c ∧ c ≤ 'Z' then Char.ofNat (c.toNat + 32) else c

/-- Rust `str::to_ascii_lowercase`. -/
def to_ascii_lowercase (s : String) : String :=
  ⟨s.data.map ascii_lower_char⟩

/-- Rust `str::contains(pat)`: substring containment. -/
def contains_str (s pat : String) : Bool :=
  (List.range (s.data.length + 1)).any (fun i => pat.data.isPrefixOf (s.data.drop i))

/-- One step of lexicographic character comparison. -/
def cmpChar (a b : Char) : Ordering :=
  if a < b then .lt else if b < a then .gt else .eq

/-- Lexicographic comparison of character lists; equals Rust's byte-wise
`Ord` on `String` because UTF-8 encoding preserves scalar-value order. -/
def cmpList : List Char → List Char → Ordering
  | [], [] => .eq
  | [], _ :: _ => .lt
  | _ :: _, [] => .gt
  | a :: as, b :: bs =>
    match cmpChar a b with
    | .eq => cmpList as bs
    | o => o

/-- Rust `String::cmp`. -/
def str_cmp (a b : String) : Ordering := cmpList a.data b.data

/-! ## Data model (`main.rs` lines 44–87) -/

/-- One decoded log record (`struct Event`, main.rs lines 44–71).  The Rust
field `class` (serde `Class`) is called `cls` here because `class` is a Lean
keyword; all other field names match the source. -/
structure Event where
  timestamp : Option String := none
  packet_type : Option String := none
  cls : Option String := none
  acct_session_id : Option String := none
  server : Option String := none
  ap_ip : Option String := none
  ap_name : Option String := none
  client_friendly_name : Option String := none
  mac : Option String := none
  user_name : Option String := none
  sam_account : Option String := none
  reason_code : Option String := none
  deriving DecidableEq, Repr

/-- One correlated transaction (`struct RadiusRequest`, main.rs lines 73–87).
`bg_color` is the highlight: `(188,255,188)` green marks success,
`(255,188,188)` red marks failure, `none` no highlight. -/
structure RadiusRequest where
  timestamp : String := ""
  req_type : String := ""
  server : String := ""
  ap_ip : String := ""
  ap_name : String := ""
  mac : String := ""
  user : String := ""
  resp_type : String := ""
  reason : String := ""
  class_id : String := ""
  session_id : String := ""
  bg_color : Option (Nat × Nat × Nat) := none
  deriving DecidableEq, Repr

/-- Rust `RadiusRequest::default()`: all fields empty / `None`. -/
def RadiusRequest.default : RadiusRequest := {}

instance : Inhabited RadiusRequest := ⟨RadiusRequest.default⟩

/-! ## Code tables (`map_packet_type` lines 1712–1722, `map_reason` 1744–1750) -/

/-- `map_packet_type` (main.rs lines 1712–1722). -/
def map_packet_type (code : String) : String :=
  if code = "1" then "Access-Request"
  else if code = "2" then "Access-Accept"
  else if code = "3" then "Access-Reject"
  else if code = "4" then "Accounting-Request"
  else if code = "5" then "Accounting-Response"
  else if code = "11" then "Access-Challenge"
  else "Type " ++ code

/-- `map_reason` (main.rs lines 1744–1750): look the code up in the reason
table, defaulting to `"Code <code>"`.  The table contents come from
`reason_codes.json`, embedded at compile time via `include_str!`
(main.rs line 1732); that file is not under `src/`, so the table is taken
as a parameter.  Modelled from the spec: the Code Tables are "static lookups
mapping numeric packet-type and reason codes to display strings". -/
def map_reason (table : String → Option String) (code : String) : String :=
  (table code).getD ("Code " ++ code)

/-! ## Correlator: folding one group (`process_group`, main.rs 1673–1710) -/

/-- The packet-type string of an event (`event.packet_type.as_deref().unwrap_or("")`). -/
def packet_type_of (e : Event) : String := e.packet_type.getD ""

/-- Whether an event is a request (`p_type == "1" || p_type == "4"`). -/
def is_request (e : Event) : Bool :=
  packet_type_of e == "1" || packet_type_of e == "4"

/-- One iteration of the `for event in group` loop of `process_group`
(main.rs lines 1675–1707), updating the accumulated `RadiusRequest`. -/
def process_event (table : String → Option String) (req : RadiusRequest)
    (event : Event) : RadiusRequest :=
  let p_type := packet_type_of event
  if p_type == "1" || p_type == "4" then
    { req with
      timestamp := event.timestamp.getD req.timestamp
      session_id := event.acct_session_id.getD req.session_id
      server := event.server.getD req.server
      ap_ip := event.ap_ip.getD req.ap_ip
      ap_name :=
        match event.client_friendly_name with
        | some v => v
        | none => event.ap_name.getD req.ap_name
      mac := event.mac.getD req.mac
      class_id := event.cls.getD req.class_id
      req_type := map_packet_type p_type
      user :=
        match event.sam_account with
        | some u => u
        | none =>
          match event.user_name with
          | some u => u
          | none => "Unknown User" }
  else
    let this_resp_type := map_packet_type p_type
    let code := event.reason_code.getD "0"
    let req1 :=
      if req.reason == "" || code != "0" then
        { req with resp_type := this_resp_type, reason := map_reason table code }
      else req
    if p_type == "2" then { req1 with bg_color := some (188, 255, 188) }
    else if p_type == "3" then { req1 with bg_color := some (255, 188, 188) }
    else req1

/-- `process_group` (main.rs lines 1673–1710): fold a correlation group into
one `RadiusRequest`, starting from the default value. -/
def process_group (table : String → Option String) (group : List Event) :
    RadiusRequest :=
  group.foldl (process_event table) RadiusRequest.default

/-! ## Correlator: grouping (`parse_full_logic`, main.rs 1646–1664) -/

/-- The grouping key of one event (main.rs lines 1650–1652):
`ev.class.as_deref().or(ev.acct_session_id.as_deref()).filter(|s| !s.is_empty())`. -/
def group_key (ev : Event) : Option String :=
  (ev.cls.or ev.acct_session_id).filter (fun s => !(s == ""))

/-- One iteration of the grouping loop (main.rs lines 1649–1664): the state
is the list of groups plus the key→index map (`class_map`, here an
association list — the Rust `HashMap` has unique keys, so `List.lookup`
agrees with it). -/
def add_event (acc : List (List Event) × List (String × Nat)) (ev : Event) :
    List (List Event) × List (String × Nat) :=
  match group_key ev with
  | some k =>
    match acc.2.lookup k with
    | some idx => (acc.1.set idx (acc.1.getD idx [] ++ [ev]), acc.2)
    | none => (acc.1 ++ [[ev]], acc.2 ++ [(k, acc.1.length)])
  | none => (acc.1 ++ [[ev]], acc.2)

/-- The grouping pass of `parse_full_logic` (main.rs lines 1646–1664). -/
def group_events (events : List Event) : List (List Event) :=
  (events.foldl add_event ([], [])).1

/-- Grouping followed by parallel folding (main.rs lines 1666–1668). -/
def correlate (table : String → Option String) (events : List Event) :
    List RadiusRequest :=
  (group_events events).map (process_group table)

/-! ## Query engine (`RadiusRequest::matches` 139–153, `apply_filter_logic` 1485–1555) -/

/-- `RadiusRequest::matches` (main.rs lines 139–153): case-insensitive
substring search over eight fields; the query is already lowercased. -/
def RadiusRequest.matches (self : RadiusRequest) (query_lower : String) : Bool :=
  if query_lower == "" then true
  else
    let check := fun (s : String) => contains_str (to_ascii_lowercase s) query_lower
    check self.user || check self.mac || check self.ap_ip || check self.ap_name ||
    check self.server || check self.reason || check self.req_type || check self.resp_type

/-- The sortable columns (`enum LogColumn`, main.rs lines 162–165).  The Rust
variant `Type` is called `Typ` here because `Type` is a Lean keyword. -/
inductive LogColumn where
  | Timestamp | Typ | Server | ApIp | ApName | Mac | User | ResponseType
  | Reason | Session
  deriving DecidableEq, Repr

/-- The failed-session-id set (main.rs lines 1498–1505): session ids of items
with `resp_type == "Access-Reject"` and a non-empty session id.  The Rust
`HashSet` is modelled as a list queried through `List.contains`. -/
def failed_session_ids (items : List RadiusRequest) : List String :=
  (items.filter (fun it => it.resp_type == "Access-Reject" && !(it.session_id == ""))).map
    (fun it => it.session_id)

/-- The per-item filter closure of `apply_filter_logic` (main.rs lines
1509–1523); `q` is the trimmed, lowercased query. -/
def keep_item (failed : List String) (show_errors_only : Bool) (q : String)
    (item : RadiusRequest) : Bool :=
  if show_errors_only && (item.session_id == "" || !(failed.contains item.session_id)) then
    false
  else if show_errors_only &&
      (item.resp_type == "Access-Accept" || item.resp_type == "Accounting-Response") then
    false
  else if q == "" then true
  else item.matches q

/-- The per-column comparison of the sort closure (main.rs lines 1530–1545). -/
def cmp_items (sort_col : LogColumn) (a b : RadiusRequest) : Ordering :=
  match sort_col with
  | .Timestamp => str_cmp a.timestamp b.timestamp
  | .Typ => str_cmp a.req_type b.req_type
  | .Server => str_cmp a.server b.server
  | .ApIp => str_cmp a.ap_ip b.ap_ip
  | .ApName => str_cmp a.ap_name b.ap_name
  | .Mac => str_cmp a.mac b.mac
  | .User => str_cmp a.user b.user
  | .ResponseType => str_cmp a.resp_type b.resp_type
  | .Reason =>
    let r_a := if a.reason == "" then a.resp_type else a.reason
    let r_b := if b.reason == "" then b.resp_type else b.reason
    str_cmp r_a r_b
  | .Session => str_cmp a.session_id b.session_id

/-- The full index comparator (main.rs lines 1527–1547), including the
`ord.reverse()` for descending order (`Ordering.swap`). -/
def cmp_ids (items : List RadiusRequest) (sort_col : LogColumn)
    (sort_descending : Bool) (a_idx b_idx : Nat) : Ordering :=
  let ord := cmp_items sort_col (items.getD a_idx default) (items.getD b_idx default)
  if sort_descending then ord.swap else ord

/-- The surviving indices before sorting (main.rs lines 1508–1524). -/
def filter_ids (items : List RadiusRequest) (q : String)
    (show_errors_only : Bool) : List Nat :=
  let failed := if show_errors_only then failed_session_ids items else []
  (List.range items.length).filter
    (fun i => keep_item failed show_errors_only q (items.getD i default))

/-- `apply_filter_logic` (main.rs lines 1485–1555) on a store snapshot:
trim and lowercase the query, filter, then sort.  Rust's
`sort_unstable_by(cmp)` is modelled as a sort with respect to the same
comparator (insertion sort); the source leaves the relative order of
comparator-equal indices unspecified. -/
def apply_filter_logic (all_items : List RadiusRequest) (query : String)
    (show_errors_only : Bool) (sort_col : LogColumn) (sort_descending : Bool) :
    List Nat :=
  let q := to_ascii_lowercase (rust_trim query)
  (filter_ids all_items q show_errors_only).insertionSort
    (fun a b => cmp_ids all_items sort_col sort_descending a b ≠ Ordering.gt)

/-! ## Ingestion completion (`parse_full_logic` line 1562 and
`on_btn_open_clicked`, main.rs lines 957–1011) -/

/-- The result of reading and parsing one source.  `read_result` is the
outcome of `fs::read_to_string(path)` (main.rs line 1562): `none` means the
source is unreadable and the `?` operator aborts with `Err`.
`extract_decode` stands for the XML extraction loop plus the parallel
decoding pass (main.rs lines 1565–1643), yielding the decoded events and the
raw `<Event>` blob count; it is irrelevant to the error path. -/
def parse_full_logic (extract_decode : String → List Event × Nat)
    (table : String → Option String) (read_result : Option String) :
    Except Unit (List RadiusRequest × Nat) :=
  match read_result with
  | none => .error ()
  | some content =>
    let ed := extract_decode content
    .ok (correlate table ed.1, ed.2)

/-- The shared state mutated by ingestion: the transaction store, the raw
event counter and the derived filtered index list. -/
structure StoreState where
  all_items : List RadiusRequest
  raw_count : Nat
  filtered_ids : List Nat
  deriving DecidableEq, Repr

/-- The completion message posted to the window (`WM_LOAD_DONE` /
`WM_LOAD_ERROR`, main.rs lines 996 and 1008). -/
inductive LoadNotification where
  | loadDone | loadError
  deriving DecidableEq, Repr

/-- The state-updating part of the background closure of
`on_btn_open_clicked` (main.rs lines 972–1010): on `Ok`, replace or extend
the store and the raw counter and recompute the filtered ids; on `Err`,
leave the state untouched and post the error notification. -/
def run_open (st : StoreState) (parse_result : Except Unit (List RadiusRequest × Nat))
    (is_append : Bool) (query : String) (show_errors_only : Bool)
    (sort_col : LogColumn) (sort_desc : Bool) : StoreState × LoadNotification :=
  match parse_result with
  | .ok (items, raw_total) =>
    let all' := if is_append then st.all_items ++ items else items
    let raw' := if is_append then st.raw_count + raw_total else raw_total
    let filt' := apply_filter_logic all' query show_errors_only sort_col sort_desc
    ({ all_items := all', raw_count := raw', filtered_ids := filt' }, .loadDone)
  | .error _ => (st, .loadError)

/-! ## Claim-side definitions (stated from the spec's words, for comparison
with the embedded code) -/

/-- The sort key the spec attributes to each column: the requested field,
with a fallback for the `Reason` key only (response-type when the reason is
empty). -/
def sortKey (col : LogColumn) (t : RadiusRequest) : String :=
  match col with
  | .Timestamp => t.timestamp
  | .Typ => t.req_type
  | .Server => t.server
  | .ApIp => t.ap_ip
  | .ApName => t.ap_name
  | .Mac => t.mac
  | .User => t.user
  | .ResponseType => t.resp_type
  | .Reason => if t.reason == "" then t.resp_type else t.reason
  | .Session => t.session_id

/-- The grouping key as the claim states it: the correlation-class code if
that field is present and non-empty, else the session id if present and
non-empty, else no key. -/
def spec_group_key (ev : Event) : Option String :=
  match ev.cls with
  | some c =>
    if c = "" then
      match ev.acct_session_id with
      | some s => if s = "" then none else some s
      | none => none
    else some c
  | none =>
    match ev.acct_session_id with
    | some s => if s = "" then none else some s
    | none => none

/-- A case-insensitive substring match of the query, as the claim states it:
against the eight searched fields, with no trimming of the query. -/
def ci_matches (item : RadiusRequest) (query : String) : Bool :=
  let check := fun (s : String) =>
    contains_str (to_ascii_lowercase s) (to_ascii_lowercase query)
  check item.user || check item.mac || check item.ap_ip || check item.ap_name ||
  check item.server || check item.reason || check item.req_type || check item.resp_type

/-- Whether an event is an accept or reject response (packet-type `"2"` or
`"3"`), the only events that set the highlight (main.rs lines 1702–1706). -/
def relevant (e : Event) : Bool :=
  packet_type_of e == "2" || packet_type_of e == "3"

/-- The highlight colour an accept or reject response event assigns: green
`(188,255,188)` for the accept code `"2"`, red `(255,188,188)` for the
reject code `"3"`. -/
def color_of (e : Event) : Nat × Nat × Nat :=
  if packet_type_of e == "2" then (188, 255, 188) else (255, 188, 188)

/-! ## Concrete example data -/

/-- The reason table obtained when `reason_codes.json` fails to parse
(main.rs line 1738): every lookup falls back to `"Code <code>"`. -/
def no_table : String → Option String := fun _ => none

/-- An event with a present-but-empty correlation class and a non-empty
session id. -/
def ev_cls_empty : Event := { cls := some "", acct_session_id := some "abc" }

/-- A lone Access-Request event (packet-type `"1"`). -/
def ev_req1 : Event := { packet_type := some "1" }

/-- An Access-Accept response with the default reason code `"0"`. -/
def ev_acc0 : Event := { packet_type := some "2", reason_code := some "0" }

/-- An Access-Reject response with reason code `"16"`. -/
def ev_rej16 : Event := { packet_type := some "3", reason_code := some "16" }

/-- A response event (packet-type `"2"`) carrying a class field. -/
def ev_resp_cls : Event := { packet_type := some "2", cls := some "X" }

/-- A transaction whose user is `"alice"`. -/
def tr_alice : RadiusRequest := { user := "alice" }

/-- A transaction whose user is `"BOB"`. -/
def tr_BOB : RadiusRequest := { user := "BOB" }

/-- A transaction whose user is `"bob"`, all other fields empty. -/
def tr_bob : RadiusRequest := { user := "bob" }

/-- A rejected transaction in session `"s"`. -/
def tr_rej : RadiusRequest := { resp_type := "Access-Reject", session_id := "s" }

/-- An accepted transaction in session `"s"`. -/
def tr_acc : RadiusRequest := { resp_type := "Access-Accept", session_id := "s" }

/-- An accounting-response transaction in session `"s"`. -/
def tr_acct : RadiusRequest := { resp_type := "Accounting-Response", session_id := "s" }

/-- A transaction with empty reason and response-type `"B"`. -/
def tr_respB : RadiusRequest := { resp_type := "B" }

/-- A transaction with empty reason and response-type `"A"`. -/
def tr_respA : RadiusRequest := { resp_type := "A" }

/-! ## Helper lemmas: character and string comparison -/

lemma cmpChar_lt {a b : Char} (h : a < b) : cmpChar a b = .lt := by
  simp [cmpChar, h]

lemma cmpChar_gt {a b : Char} (h : b < a) : cmpChar a b = .gt := by
  simp [cmpChar, h, asymm h]

lemma cmpChar_eq {a b : Char} (h : a = b) : cmpChar a b = .eq := by
  subst h; simp [cmpChar]

lemma lt_of_cmpChar_lt {a b : Char} (h : cmpChar a b = .lt) : a < b := by
  rcases lt_trichotomy a b with hl | he | hg
  · exact hl
  · rw [cmpChar_eq he] at h; cases h
  · rw [cmpChar_gt hg] at h; cases h

lemma eq_of_cmpChar_eq {a b : Char} (h : cmpChar a b = .eq) : a = b := by
  rcases lt_trichotomy a b with hl | he | hg
  · rw [cmpChar_lt hl] at h; cases h
  · exact he
  · rw [cmpChar_gt hg] at h; cases h

lemma cmpChar_swap (a b : Char) : (cmpChar a b).swap = cmpChar b a := by
  rcases lt_trichotomy a b with hl | he | hg
  · rw [cmpChar_lt hl, cmpChar_gt hl]; rfl
  · rw [cmpChar_eq he, cmpChar_eq he.symm]; rfl
  · rw [cmpChar_gt hg, cmpChar_lt hg]; rfl

lemma cmpList_swap : ∀ (a b : List Char), (cmpList a b).swap = cmpList b a
  | [], [] => rfl
  | [], _ :: _ => rfl
  | _ :: _, [] => rfl
  | a :: as, b :: bs => by
    simp only [cmpList]
    rcases h : cmpChar a b with _ | _ | _
    · rw [← cmpChar_swap, h]; rfl
    · rw [← cmpChar_swap, h]
      exact cmpList_swap as bs
    · rw [← cmpChar_swap, h]; rfl

lemma cmpList_trans (a : List Char) :
    ∀ b c, cmpList a b ≠ .gt → cmpList b c ≠ .gt → cmpList a c ≠ .gt := by
  induction a with
  | nil => intro b c _ _; cases c <;> simp [cmpList]
  | cons x xs ih =>
    intro b c h1 h2
    cases b with
    | nil => simp [cmpList] at h1
    | cons y ys =>
      cases c with
      | nil => simp [cmpList] at h2
      | cons z zs =>
        simp only [cmpList] at h1 h2 ⊢
        rcases hxy : cmpChar x y with _ | _ | _ <;> rw [hxy] at h1 <;>
          rcases hyz : cmpChar y z with _ | _ | _ <;> rw [hyz] at h2
        · have := lt_trans (lt_of_cmpChar_lt hxy) (lt_of_cmpChar_lt hyz)
          rw [cmpChar_lt this]; simp
        · have := eq_of_cmpChar_eq hyz ▸ lt_of_cmpChar_lt hxy
          rw [cmpChar_lt this]; simp
        · exact absurd rfl h2
        · have := (eq_of_cmpChar_eq hxy) ▸ lt_of_cmpChar_lt hyz
          rw [cmpChar_lt this]; simp
        · have hxz : x = z := (eq_of_cmpChar_eq hxy).trans (eq_of_cmpChar_eq hyz)
          rw [cmpChar_eq hxz]
          exact ih ys zs h1 h2
        · exact absurd rfl h2
        · exact absurd rfl h1
        · exact absurd rfl h1
        · exact absurd rfl h1

lemma str_cmp_swap (a b : String) : (str_cmp a b).swap = str_cmp b a :=
  cmpList_swap a.data b.data

lemma str_cmp_trans {a b c : String} (h1 : str_cmp a b ≠ .gt)
    (h2 : str_cmp b c ≠ .gt) : str_cmp a c ≠ .gt :=
  cmpList_trans a.data b.data c.data h1 h2

lemma str_cmp_total (a b : String) : str_cmp a b ≠ .gt ∨ str_cmp b a ≠ .gt := by
  rcases h : str_cmp a b with _ | _ | _
  · left; simp [h]
  · left; simp [h]
  · right
    have hs : str_cmp b a = Ordering.lt := by
      rw [← str_cmp_swap a b, h]; rfl
    simp [hs]

lemma append_prefix_ne_empty (p c : String) (hp : p.length ≠ 0) : p ++ c ≠ "" := by
  intro h
  have h2 := congrArg String.length h
  rw [String.length_append] at h2
  have h0 : ("" : String).length = 0 := rfl
  omega

lemma map_packet_type_ne_empty (code : String) : map_packet_type code ≠ "" := by
  unfold map_packet_type
  split_ifs <;> first
    | decide
    | exact append_prefix_ne_empty "Type " code (by decide)

lemma map_reason_ne_empty {table : String → Option String}
    (hT : ∀ c v, table c = some v → v ≠ "") (code : String) :
    map_reason table code ≠ "" := by
  unfold map_reason
  rcases h : table code with _ | v
  · simpa using append_prefix_ne_empty "Code " code (by decide)
  · simpa using hT code v h

/-! ## Helper lemmas: one folding step -/

lemma request_cond {e : Event} (h : is_request e = true) :
    (packet_type_of e == "1" || packet_type_of e == "4") = true := h

lemma not_request_cond {e : Event} (h : is_request e = false) :
    ¬((packet_type_of e == "1" || packet_type_of e == "4") = true) := by
  unfold is_request at h; simp [h]

lemma process_event_request_fields (table : String → Option String)
    (req : RadiusRequest) {e : Event} (h : is_request e = true) :
    (process_event table req e).req_type = map_packet_type (packet_type_of e) ∧
    (process_event table req e).resp_type = req.resp_type ∧
    (process_event table req e).reason = req.reason ∧
    (process_event table req e).bg_color = req.bg_color ∧
    (process_event table req e).class_id = e.cls.getD req.class_id := by
  simp only [process_event]
  rw [if_pos (request_cond h)]
  exact ⟨rfl, rfl, rfl, rfl, rfl⟩

lemma process_event_response_frame (table : String → Option String)
    (req : RadiusRequest) {e : Event} (h : is_request e = false) :
    (process_event table req e).req_type = req.req_type ∧
    (process_event table req e).class_id = req.class_id ∧
    (process_event table req e).user = req.user := by
  simp only [process_event]
  rw [if_neg (not_request_cond h)]
  split_ifs <;> exact ⟨rfl, rfl, rfl⟩

lemma process_event_response_overwrite (table : String → Option String)
    (req : RadiusRequest) {e : Event} (h : is_request e = false)
    (hc : req.reason = "" ∨ e.reason_code.getD "0" ≠ "0") :
    (process_event table req e).resp_type = map_packet_type (packet_type_of e) ∧
    (process_event table req e).reason = map_reason table (e.reason_code.getD "0") := by
  simp only [process_event]
  rw [if_neg (not_request_cond h)]
  have hb : (req.reason == "" || e.reason_code.getD "0" != "0") = true := by
    rcases hc with h' | h' <;> simp [h']
  rw [if_pos hb]
  split_ifs <;> exact ⟨rfl, rfl⟩

lemma process_event_response_keep (table : String → Option String)
    (req : RadiusRequest) {e : Event} (h : is_request e = false)
    (hr : req.reason ≠ "") (hc : e.reason_code.getD "0" = "0") :
    (process_event table req e).resp_type = req.resp_type ∧
    (process_event table req e).reason = req.reason := by
  simp only [process_event]
  rw [if_neg (not_request_cond h)]
  have hb : ¬((req.reason == "" || e.reason_code.getD "0" != "0") = true) := by
    simp [hr, hc]
  rw [if_neg hb]
  split_ifs <;> exact ⟨rfl, rfl⟩

lemma process_event_response_resp_ne (table : String → Option String)
    (req : RadiusRequest) {e : Event} (h : is_request e = false)
    (hinv : req.resp_type = "" → req.reason = "") :
    (process_event table req e).resp_type ≠ "" := by
  by_cases hc : req.reason = "" ∨ e.reason_code.getD "0" ≠ "0"
  · rw [(process_event_response_overwrite table req h hc).1]
    exact map_packet_type_ne_empty _
  · push_neg at hc
    rw [(process_event_response_keep table req h hc.1 hc.2).1]
    intro he
    exact hc.1 (hinv he)

lemma process_event_inv (table : String → Option String) (req : RadiusRequest)
    (e : Event) (hinv : req.resp_type = "" → req.reason = "") :
    (process_event table req e).resp_type = "" → (process_event table req e).reason = "" := by
  rcases hre : is_request e with _ | _
  · intro hr
    exact absurd hr (process_event_response_resp_ne table req hre hinv)
  · have hf := process_event_request_fields table req hre
    rw [hf.2.1, hf.2.2.1]
    exact hinv

lemma process_event_resp_ne_persist (table : String → Option String)
    (req : RadiusRequest) (e : Event) (h : req.resp_type ≠ "") :
    (process_event table req e).resp_type ≠ "" := by
  rcases hre : is_request e with _ | _
  · by_cases hc : req.reason = "" ∨ e.reason_code.getD "0" ≠ "0"
    · rw [(process_event_response_overwrite table req hre hc).1]
      exact map_packet_type_ne_empty _
    · push_neg at hc
      rw [(process_event_response_keep table req hre hc.1 hc.2).1]
      exact h
  · rw [(process_event_request_fields table req hre).2.1]
    exact h

lemma process_event_req_ne_persist (table : String → Option String)
    (req : RadiusRequest) (e : Event) (h : req.req_type ≠ "") :
    (process_event table req e).req_type ≠ "" := by
  rcases hre : is_request e with _ | _
  · rw [(process_event_response_frame table req hre).1]
    exact h
  · rw [(process_event_request_fields table req hre).1]
    exact map_packet_type_ne_empty _

/-! ## Helper lemmas: folding a whole group -/

lemma foldl_req_ne (table : String → Option String) :
    ∀ (g : List Event) (req : RadiusRequest), req.req_type ≠ "" →
      (g.foldl (process_event table) req).req_type ≠ ""
  | [], _, h => h
  | e :: g, req, h =>
    foldl_req_ne table g _ (process_event_req_ne_persist table req e h)

lemma foldl_resp_ne (table : String → Option String) :
    ∀ (g : List Event) (req : RadiusRequest), req.resp_type ≠ "" →
      (g.foldl (process_event table) req).resp_type ≠ ""
  | [], _, h => h
  | e :: g, req, h =>
    foldl_resp_ne table g _ (process_event_resp_ne_persist table req e h)

lemma foldl_req_exists (table : String → Option String) :
    ∀ (g : List Event) (req : RadiusRequest), (∃ e ∈ g, is_request e = true) →
      (g.foldl (process_event table) req).req_type ≠ "" := by
  intro g
  induction g with
  | nil => rintro req ⟨e, he, _⟩; cases he
  | cons e g ih =>
    rintro req ⟨w, hw, hreq⟩
    rcases List.mem_cons.mp hw with rfl | hw'
    · have hstep : (process_event table req w).req_type ≠ "" := by
        rw [(process_event_request_fields table req hreq).1]
        exact map_packet_type_ne_empty _
      exact foldl_req_ne table g _ hstep
    · exact ih _ ⟨w, hw', hreq⟩

lemma foldl_resp_exists (table : String → Option String) :
    ∀ (g : List Event) (req : RadiusRequest),
      (req.resp_type = "" → req.reason = "") → (∃ e ∈ g, is_request e = false) →
      (g.foldl (process_event table) req).resp_type ≠ "" := by
  intro g
  induction g with
  | nil => rintro req _ ⟨e, he, _⟩; cases he
  | cons e g ih =>
    rintro req hinv ⟨w, hw, hresp⟩
    rcases hre : is_request e with _ | _
    · exact foldl_resp_ne table g _ (process_event_response_resp_ne table req hre hinv)
    · have hw' : w ∈ g := by
        rcases List.mem_cons.mp hw with rfl | hw'
        · rw [hre] at hresp; cases hresp
        · exact hw'
      exact ih _ (process_event_inv table req e hinv) ⟨w, hw', hresp⟩

lemma foldl_class_id (table : String → Option String) :
    ∀ (g : List Event) (req : RadiusRequest), (∀ e ∈ g, is_request e = false) →
      (g.foldl (process_event table) req).class_id = req.class_id
  | [], _, _ => rfl
  | e :: g, req, h => by
    have h1 : is_request e = false := h e (List.mem_cons_self e g)
    have h2 := foldl_class_id table g (process_event table req e)
      (fun x hx => h x (List.mem_cons_of_mem e hx))
    rw [List.foldl_cons, h2, (process_event_response_frame table req h1).2.1]

/-! ## Helper lemmas: highlight colour -/

lemma relevant_not_request {e : Event} (h : relevant e = true) :
    is_request e = false := by
  simp only [relevant] at h
  rcases Bool.or_eq_true_iff.mp h with h' | h' <;>
  · unfold is_request
    rw [beq_iff_eq.mp h']
    decide

lemma process_event_bg_relevant (table : String → Option String)
    (req : RadiusRequest) {e : Event} (h : relevant e = true) :
    (process_event table req e).bg_color = some (color_of e) := by
  have hnr := relevant_not_request h
  simp only [process_event]
  rw [if_neg (not_request_cond hnr)]
  simp only [relevant] at h
  unfold color_of
  rcases Bool.or_eq_true_iff.mp h with h' | h'
  · simp only [h', if_true]
  · have h2 : (packet_type_of e == "2") = false := by
      rw [beq_iff_eq.mp h']; decide
    simp only [h', h2, if_true, if_false, Bool.false_eq_true]

lemma process_event_bg_irrelevant (table : String → Option String)
    (req : RadiusRequest) {e : Event} (h : relevant e = false) :
    (process_event table req e).bg_color = req.bg_color := by
  simp only [relevant, Bool.or_eq_false_iff] at h
  rcases hre : is_request e with _ | _
  · simp only [process_event]
    rw [if_neg (not_request_cond hre)]
    simp only [h.1, h.2, Bool.false_eq_true, if_false]
    split_ifs <;> rfl
  · exact (process_event_request_fields table req hre).2.2.2.1

lemma foldl_bg (table : String → Option String) :
    ∀ (g : List Event) (req : RadiusRequest),
      (g.foldl (process_event table) req).bg_color =
        (match (g.filter relevant).getLast? with
         | some e => some (color_of e)
         | none => req.bg_color) := by
  intro g
  induction g using List.reverseRecOn with
  | nil => intro req; rfl
  | append_singleton g e ih =>
    intro req
    rw [List.foldl_append, List.foldl_cons, List.foldl_nil, List.filter_append]
    rcases hre : relevant e with _ | _
    · simp only [List.filter_cons, hre, Bool.false_eq_true, if_false, List.filter_nil,
        List.append_nil]
      rw [process_event_bg_irrelevant table _ hre]
      exact ih req
    · simp only [List.filter_cons, hre, if_true, List.filter_nil]
      rw [List.getLast?_concat]
      exact process_event_bg_relevant table _ hre

/-! ## Helper lemmas: query engine -/

lemma to_ascii_lowercase_ne_empty {s : String} (h : s ≠ "") :
    to_ascii_lowercase s ≠ "" := by
  intro he
  apply h
  have hd : s.data.map ascii_lower_char = [] := congrArg String.data he
  exact String.ext (List.map_eq_nil_iff.mp hd)

lemma matches_lower (item : RadiusRequest) {q : String} (hq : rust_trim q ≠ "") :
    item.matches (to_ascii_lowercase (rust_trim q)) = ci_matches item (rust_trim q) := by
  unfold RadiusRequest.matches ci_matches
  rw [if_neg (by simp [beq_eq_false_iff_ne.mpr (to_ascii_lowercase_ne_empty hq)])]

lemma keep_item_no_errors (failed : List String) (q : String) (item : RadiusRequest) :
    keep_item failed false q item = (if q == "" then true else item.matches q) := by
  unfold keep_item
  simp

lemma mem_filter_ids {items : List RadiusRequest} {q : String} {serr : Bool} {i : Nat} :
    i ∈ filter_ids items q serr ↔ i < items.length ∧
      keep_item (if serr then failed_session_ids items else []) serr q
        (items.getD i default) = true := by
  unfold filter_ids
  simp [List.mem_filter, List.mem_range]

lemma failed_session_ids_contains (items : List RadiusRequest) (s : String) :
    (failed_session_ids items).contains s = true ↔
      ∃ t ∈ items, t.resp_type = "Access-Reject" ∧ t.session_id ≠ "" ∧ t.session_id = s := by
  unfold failed_session_ids
  simp only [List.contains, List.elem_iff, List.mem_map, List.mem_filter,
    Bool.and_eq_true, beq_iff_eq, Bool.not_eq_true', beq_eq_false_iff_ne, ne_eq]
  constructor
  · rintro ⟨t, ⟨ht, hrej, hsess⟩, hs⟩
    exact ⟨t, ht, hrej, hsess, hs⟩
  · rintro ⟨t, ht, hrej, hsess, hs⟩
    exact ⟨t, ⟨ht, hrej, hsess⟩, hs⟩

lemma cmp_items_eq_sortKey (col : LogColumn) (a b : RadiusRequest) :
    cmp_items col a b = str_cmp (sortKey col a) (sortKey col b) := by
  cases col <;> rfl

lemma cmp_ids_trans (items : List RadiusRequest) (col : LogColumn) (desc : Bool)
    (i j k : Nat) (h1 : cmp_ids items col desc i j ≠ .gt)
    (h2 : cmp_ids items col desc j k ≠ .gt) : cmp_ids items col desc i k ≠ .gt := by
  unfold cmp_ids at *
  cases desc
  · simp only [Bool.false_eq_true, if_false] at *
    rw [cmp_items_eq_sortKey] at *
    exact str_cmp_trans h1 h2
  · simp only [if_true] at *
    rw [cmp_items_eq_sortKey, str_cmp_swap] at *
    exact str_cmp_trans h2 h1

lemma cmp_ids_total (items : List RadiusRequest) (col : LogColumn) (desc : Bool)
    (i j : Nat) : cmp_ids items col desc i j ≠ .gt ∨ cmp_ids items col desc j i ≠ .gt := by
  unfold cmp_ids
  cases desc
  · simp only [Bool.false_eq_true, if_false]
    rw [cmp_items_eq_sortKey, cmp_items_eq_sortKey]
    exact str_cmp_total _ _
  · simp only [if_true]
    rw [cmp_items_eq_sortKey, str_cmp_swap, cmp_items_eq_sortKey, str_cmp_swap]
    exact str_cmp_total _ _

/-! ## Claim theorems -/

/-- C1, counterexample.  The claim says an event whose correlation-class
field is present but empty and whose session id is non-empty is grouped
under its session id.  In the code the non-empty filter runs only after
`class.or(session)` (main.rs lines 1650–1652), so such an event gets no key
at all: its key is `none` where the claim's rule yields `some "abc"`, and
two such events with the same session id land in two singleton groups
instead of one shared group. -/
theorem c1_grouping_key_counterexample :
    group_key ev_cls_empty = none ∧
    spec_group_key ev_cls_empty = some "abc" ∧
    group_events [ev_cls_empty, ev_cls_empty] = [[ev_cls_empty], [ev_cls_empty]] := by
  refine ⟨by decide, by decide, by decide⟩

/-- C1, amended.  The grouping key is the correlation-class code if that
field is present and non-empty; if the class field is present but empty the
event gets no key (the session id is never consulted); if the class field is
absent, the key is the session id if present and non-empty; otherwise no
key.  A keyless event always forms its own singleton group appended in
order. -/
theorem c1_grouping_key_amended :
    (∀ ev : Event, group_key ev =
      (match ev.cls with
       | some c => if c = "" then none else some c
       | none =>
         match ev.acct_session_id with
         | some s => if s = "" then none else some s
         | none => none)) ∧
    (∀ (evs : List Event) (ev : Event), group_key ev = none →
      group_events (evs ++ [ev]) = group_events evs ++ [[ev]]) := by
  constructor
  · intro ev
    unfold group_key
    cases hc : ev.cls <;> cases hs : ev.acct_session_id <;>
      simp only [Option.or, Option.filter] <;>
      first
        | rfl
        | (split_ifs <;> simp_all)
  · intro evs ev h
    unfold group_events
    rw [List.foldl_append, List.foldl_cons, List.foldl_nil]
    unfold add_event
    rw [h]

/-- C1, witness: a keyless event (present-but-empty class, non-empty
session) forms its own singleton group, by the amended theorem at the
concrete event `ev_cls_empty`. -/
theorem c1_grouping_key_witness :
    group_events [ev_cls_empty] = [[ev_cls_empty]] := by
  simpa using c1_grouping_key_amended.2 [] ev_cls_empty (by decide)

/-- C2, counterexample.  The claim says every folded Transaction has
non-empty request-type and response-type, "including groups containing only
request events or only response events".  A group holding one Access-Request
event leaves `resp_type` empty, and a group holding one response event
leaves `req_type` empty: `process_group` (main.rs lines 1673–1710) sets each
field only when an event of the corresponding kind occurs. -/
theorem c2_nonempty_types_counterexample :
    (process_group no_table [ev_req1]).resp_type = "" ∧
    (process_group no_table [ev_acc0]).req_type = "" := by decide

/-- C2, amended.  A packet-type code without a display mapping maps to
`"Type <code>"` rather than an empty string; and after folding, the
request-type is non-empty whenever the group contains at least one request
event, and the response-type is non-empty whenever the group contains at
least one response (non-request) event. -/
theorem c2_nonempty_types_amended :
    (∀ code : String, code ∉ (["1", "2", "3", "4", "5", "11"] : List String) →
      map_packet_type code = "Type " ++ code) ∧
    (∀ (table : String → Option String) (group : List Event),
      ((∃ e ∈ group, is_request e = true) →
        (process_group table group).req_type ≠ "") ∧
      ((∃ e ∈ group, is_request e = false) →
        (process_group table group).resp_type ≠ "")) := by
  constructor
  · intro code h
    simp only [List.mem_cons, List.not_mem_nil, or_false, not_or] at h
    unfold map_packet_type
    rw [if_neg h.1, if_neg h.2.1, if_neg h.2.2.1, if_neg h.2.2.2.1,
      if_neg h.2.2.2.2.1, if_neg h.2.2.2.2.2]
  · intro table group
    exact ⟨fun h => foldl_req_exists table group _ h,
           fun h => foldl_resp_exists table group _ (fun _ => rfl) h⟩

/-- C2, witness: the amended theorem applied to the unmapped code `"99"` and
to a concrete group holding one request and one response event. -/
theorem c2_nonempty_types_witness :
    map_packet_type "99" = "Type " ++ "99" ∧
    (process_group no_table [ev_req1, ev_acc0]).req_type ≠ "" ∧
    (process_group no_table [ev_req1, ev_acc0]).resp_type ≠ "" :=
  ⟨c2_nonempty_types_amended.1 "99" (by decide),
   (c2_nonempty_types_amended.2 no_table [ev_req1, ev_acc0]).1
     ⟨ev_req1, by decide, by decide⟩,
   (c2_nonempty_types_amended.2 no_table [ev_req1, ev_acc0]).2
     ⟨ev_acc0, by decide, by decide⟩⟩

/-- C3.  For every response event the folding step overwrites the
Transaction's response-type and reason exactly unless a non-empty reason is
already recorded and the new event's reason code is the default `"0"`
(`req.reason` is non-empty exactly when an earlier response recorded a
non-empty reason, since the reason field is written only by responses); and
for the concrete reason-code pairs ("0" then "16", and "16" then "0") the
resulting reason is the one mapped from code "16" in both orders.  The
hypothesis `hT` states that the externally supplied reason table maps codes
to display strings, never to the empty string (spec-modelled: the table data
`reason_codes.json` is not under `src/`). -/
theorem c3_reason_overwrite (table : String → Option String)
    (hT : ∀ c v, table c = some v → v ≠ "") :
    (∀ (req : RadiusRequest) (e : Event), is_request e = false →
      ((req.reason ≠ "" ∧ e.reason_code.getD "0" = "0") →
        (process_event table req e).resp_type = req.resp_type ∧
        (process_event table req e).reason = req.reason) ∧
      (¬(req.reason ≠ "" ∧ e.reason_code.getD "0" = "0") →
        (process_event table req e).resp_type = map_packet_type (packet_type_of e) ∧
        (process_event table req e).reason = map_reason table (e.reason_code.getD "0"))) ∧
    (process_group table [ev_acc0, ev_rej16]).reason = map_reason table "16" ∧
    (process_group table [ev_rej16, ev_acc0]).reason = map_reason table "16" := by
  refine ⟨fun req e he => ⟨fun hk => process_event_response_keep table req he hk.1 hk.2,
    fun hn => process_event_response_overwrite table req he ?_⟩, ?_, ?_⟩
  · by_cases hr : req.reason = ""
    · exact Or.inl hr
    · right
      intro hc
      exact hn ⟨hr, hc⟩
  · show (process_event table (process_event table RadiusRequest.default ev_acc0)
      ev_rej16).reason = map_reason table "16"
    exact (process_event_response_overwrite table _ (by decide) (Or.inr (by decide))).2
  · show (process_event table (process_event table RadiusRequest.default ev_rej16)
      ev_acc0).reason = map_reason table "16"
    have h1 := process_event_response_overwrite table RadiusRequest.default
      (show is_request ev_rej16 = false by decide) (Or.inl rfl)
    have hr : (process_event table RadiusRequest.default ev_rej16).reason ≠ "" := by
      rw [h1.2]
      exact map_reason_ne_empty hT _
    have h2 := process_event_response_keep table _
      (show is_request ev_acc0 = false by decide) hr (by decide)
    rw [h2.2, h1.2]
    rfl

/-- C3, witness: at the concrete table of the fallback path (every code maps
to `"Code <code>"`), both orders of the reason codes "0" and "16" yield
reason `"Code 16"`. -/
theorem c3_reason_overwrite_witness :
    (process_group no_table [ev_acc0, ev_rej16]).reason = "Code 16" ∧
    (process_group no_table [ev_rej16, ev_acc0]).reason = "Code 16" := by
  have h := c3_reason_overwrite no_table (fun c v hv => by cases hv)
  exact ⟨h.2.1, h.2.2⟩

/-- C4.  With the failed-sessions flag set, a Transaction passes the
failed-sessions stage (the text stage being neutral under the empty query)
if and only if its session id is non-empty, some Transaction of the store
with that session id has the reject response-type `"Access-Reject"`, and its
own response-type is neither `"Access-Accept"` nor `"Accounting-Response"`;
and for the concrete store of three Transactions sharing session `"s"` with
response-types reject, accept and accounting-response, the engine returns
exactly the reject one. -/
theorem c4_failed_sessions_filter :
    (∀ (items : List RadiusRequest) (item : RadiusRequest),
      keep_item (failed_session_ids items) true "" item = true ↔
        (item.session_id ≠ "" ∧
         (∃ t ∈ items, t.resp_type = "Access-Reject" ∧ t.session_id = item.session_id) ∧
         item.resp_type ≠ "Access-Accept" ∧ item.resp_type ≠ "Accounting-Response")) ∧
    apply_filter_logic [tr_rej, tr_acc, tr_acct] "" true .Timestamp false = [0] := by
  constructor
  · intro items item
    have hcont := failed_session_ids_contains items item.session_id
    unfold keep_item
    simp only [Bool.true_and]
    split_ifs with h1 h2 h3
    · simp only [Bool.or_eq_true_iff, beq_iff_eq, Bool.not_eq_true'] at h1
      simp only [false_iff, not_and, ne_eq]
      intro hs hex
      rcases h1 with h1 | h1
      · exact absurd h1 hs
      · rcases hex with ⟨t, ht, hrej, hsess⟩
        have hc : (failed_session_ids items).contains item.session_id = true :=
          hcont.mpr ⟨t, ht, hrej, by rw [hsess]; exact hs, hsess⟩
        rw [hc] at h1
        cases h1
    · simp only [Bool.or_eq_true_iff, beq_iff_eq] at h2
      simp only [false_iff, not_and, ne_eq]
      intro _ _ hacc hacct
      rcases h2 with h2 | h2
      · exact hacc h2
      · exact hacct h2
    · simp only [true_iff]
      simp only [Bool.or_eq_true_iff, beq_iff_eq, Bool.not_eq_true', not_or] at h1
      simp only [Bool.or_eq_true_iff, beq_iff_eq, not_or] at h2
      have hcontains : (failed_session_ids items).contains item.session_id = true := by
        cases hb : (failed_session_ids items).contains item.session_id
        · exact absurd hb h1.2
        · rfl
      rcases hcont.mp hcontains with ⟨t, ht, hrej, _, hsess⟩
      exact ⟨h1.1, ⟨t, ht, hrej, hsess⟩, h2.1, h2.2⟩
    · exact absurd rfl h3
  · decide

/-- C5, counterexample.  The claim says that for a group with no request
event the Transaction's correlation-class field equals the class field of
the first event of the group.  `process_group` writes `class_id` only inside
the request branch (main.rs line 1685), so a group holding a single response
event carrying class `"X"` yields an empty `class_id`, not `"X"`. -/
theorem c5_class_fallback_counterexample :
    (process_group no_table [ev_resp_cls]).class_id = "" ∧
    ev_resp_cls.cls = some "X" := by decide

/-- C5, amended.  For every group containing no request event, the folded
Transaction's correlation-class field stays the empty default: the fallback
to the first event's class field described by the spec is not implemented. -/
theorem c5_class_fallback_amended (table : String → Option String)
    (group : List Event) (h : ∀ e ∈ group, is_request e = false) :
    (process_group table group).class_id = "" :=
  foldl_class_id table group RadiusRequest.default h

/-- C5, witness: the amended theorem at the concrete request-less group
`[ev_resp_cls]`. -/
theorem c5_class_fallback_witness :
    (process_group no_table [ev_resp_cls]).class_id = "" :=
  c5_class_fallback_amended no_table [ev_resp_cls] (by decide)

/-- C6, counterexample.  The claim says a Transaction passes the text stage
iff a case-insensitive substring match of the query succeeds against one of
the eight searched fields.  The code first trims the query (main.rs line
1493), so the query `" bob "` admits the Transaction whose user is `"bob"`
even though `" bob "` matches none of its fields case-insensitively. -/
theorem c6_text_search_counterexample :
    apply_filter_logic [tr_bob] " bob " false .Timestamp false = [0] ∧
    ci_matches tr_bob " bob " = false := by decide

/-- C6, amended.  For a query whose trim is non-empty, an index survives the
engine (failed-sessions off) iff it addresses a store position whose
Transaction matches the trimmed query ASCII-case-insensitively on at least
one of: user, MAC, client IP, client name, server, reason, request-type,
response-type; and the concrete query `"bob"` selects `"BOB"` but not
`"alice"`. -/
theorem c6_text_search_amended :
    (∀ (items : List RadiusRequest) (query : String) (col : LogColumn)
        (desc : Bool) (i : Nat),
      rust_trim query ≠ "" →
      (i ∈ apply_filter_logic items query false col desc ↔
        i < items.length ∧ ci_matches (items.getD i default) (rust_trim query) = true)) ∧
    apply_filter_logic [tr_alice, tr_BOB] "bob" false .Timestamp false = [1] := by
  constructor
  · intro items query col desc i hq
    unfold apply_filter_logic
    rw [List.mem_insertionSort, mem_filter_ids]
    simp only [Bool.false_eq_true, if_false]
    rw [keep_item_no_errors]
    rw [if_neg (by simp [beq_eq_false_iff_ne.mpr (to_ascii_lowercase_ne_empty hq)])]
    rw [matches_lower _ hq]
  · decide

/-- C7.  The code's per-column comparison is exactly string comparison of
the claim's sort key (so only the `Reason` column has a fallback, to the
response-type when the reason is empty); the engine's output is a
permutation of the surviving indices that is pairwise ordered by that key in
the requested direction; and two Transactions with empty reasons and
response-types `"B"`, `"A"` sort by response-type under the `Reason` key. -/
theorem c7_sort_order :
    (∀ (col : LogColumn) (a b : RadiusRequest),
      cmp_items col a b = str_cmp (sortKey col a) (sortKey col b)) ∧
    (∀ (items : List RadiusRequest) (query : String) (serr : Bool)
        (col : LogColumn) (desc : Bool),
      (apply_filter_logic items query serr col desc).Perm
        (filter_ids items (to_ascii_lowercase (rust_trim query)) serr) ∧
      (apply_filter_logic items query serr col desc).Pairwise (fun i j =>
        if desc then
          str_cmp (sortKey col (items.getD j default))
            (sortKey col (items.getD i default)) ≠ Ordering.gt
        else
          str_cmp (sortKey col (items.getD i default))
            (sortKey col (items.getD j default)) ≠ Ordering.gt)) ∧
    apply_filter_logic [tr_respB, tr_respA] "" false .Reason false = [1, 0] := by
  refine ⟨cmp_items_eq_sortKey, fun items query serr col desc => ⟨?_, ?_⟩, by decide⟩
  · exact List.perm_insertionSort _ _
  · have hrel : ∀ i j : Nat, cmp_ids items col desc i j ≠ Ordering.gt →
        (if desc then
          str_cmp (sortKey col (items.getD j default))
            (sortKey col (items.getD i default)) ≠ Ordering.gt
        else
          str_cmp (sortKey col (items.getD i default))
            (sortKey col (items.getD j default)) ≠ Ordering.gt) := by
      intro i j h
      unfold cmp_ids at h
      cases desc
      · simp only [Bool.false_eq_true, if_false] at *
        rw [cmp_items_eq_sortKey] at h
        exact h
      · simp only [if_true] at *
        rw [cmp_items_eq_sortKey, str_cmp_swap] at h
        exact h
    haveI : IsTrans Nat (fun a b => cmp_ids items col desc a b ≠ Ordering.gt) :=
      ⟨fun i j k => cmp_ids_trans items col desc i j k⟩
    haveI : IsTotal Nat (fun a b => cmp_ids items col desc a b ≠ Ordering.gt) :=
      ⟨fun i j => cmp_ids_total items col desc i j⟩
    exact List.Pairwise.imp (fun {i j} h => hrel i j h)
      (List.sorted_insertionSort (fun a b => cmp_ids items col desc a b ≠ Ordering.gt)
        (filter_ids items (to_ascii_lowercase (rust_trim query)) serr))

/-- C8.  When the source cannot be read, `parse_full_logic` aborts with an
error (the `?` on `fs::read_to_string`), and the open-button completion step
leaves the store state — transactions, raw counter and filtered ids —
completely unchanged while posting the distinct failure notification
`WM_LOAD_ERROR`. -/
theorem c8_unreadable_source (st : StoreState)
    (extract_decode : String → List Event × Nat) (table : String → Option String)
    (is_append : Bool) (query : String) (serr : Bool) (col : LogColumn)
    (desc : Bool) :
    run_open st (parse_full_logic extract_decode table none)
        is_append query serr col desc = (st, LoadNotification.loadError) ∧
    LoadNotification.loadError ≠ LoadNotification.loadDone :=
  ⟨rfl, by decide⟩

/-- C9.  The query engine is deterministic: its output is a pure function of
the store snapshot, text query, failed-sessions flag, sort key and sort
direction, so two runs over unchanged inputs produce identical index
lists. -/
theorem c9_query_deterministic (items : List RadiusRequest) (query : String)
    (serr : Bool) (col : LogColumn) (desc : Bool) :
    apply_filter_logic items query serr col desc =
      apply_filter_logic items query serr col desc := rfl

/-- C10.  Every accept ("2") or reject ("3") response event unconditionally
sets the highlight to its colour (even when the reason-overwrite rule kept
the response-type and reason), every other event leaves the highlight
unchanged, and consequently the folded Transaction's highlight is that of
the last accept/reject event of the group — `none` when there is none. -/
theorem c10_highlight_last_response :
    (∀ (table : String → Option String) (req : RadiusRequest) (e : Event),
      relevant e = true → (process_event table req e).bg_color = some (color_of e)) ∧
    (∀ (table : String → Option String) (req : RadiusRequest) (e : Event),
      relevant e = false → (process_event table req e).bg_color = req.bg_color) ∧
    (∀ (table : String → Option String) (group : List Event),
      (process_group table group).bg_color =
        (match (group.filter relevant).getLast? with
         | some e => some (color_of e)
         | none => none)) :=
  ⟨fun table req _ h => process_event_bg_relevant table req h,
   fun table req _ h => process_event_bg_irrelevant table req h,
   fun table group => foldl_bg table group RadiusRequest.default⟩
